import Mathlib

set_option maxHeartbeats 1000000
set_option maxRecDepth 4000

/- Verification development for the virtual-memory simulator
   (Operating_Systems/ch10/virtual_memory_simulator.py): the demand-paging engine with
   FIFO/LRU/Optimal/Clock/LFU/MFU replacement, the copy-on-write page-sharing model,
   the working-set thrashing detector, and the buddy-system allocator.

   Modelling conventions: Python dicts become insertion-ordered association lists,
   Python lists become Lean lists, Python exceptions become explicit result types,
   Python ints become Int (Nat where the value is provably a count/index). -/

/-! ## Association lists (insertion-ordered Python dicts) -/

def alookup [DecidableEq α] : List (α × β) → α → Option β
  | [], _ => none
  | (k', v') :: rest, k => if k' = k then some v' else alookup rest k

/-- Python dict assignment: replace in place if the key exists, else append. -/
def aset [DecidableEq α] : List (α × β) → α → β → List (α × β)
  | [], k, v => [(k, v)]
  | (k', v') :: rest, k, v => if k' = k then (k, v) :: rest else (k', v') :: aset rest k v

/-- Python `del d[k]` (the first binding with the key is removed; a miss is the caller's
KeyError, checked separately). -/
def aerase [DecidableEq α] : List (α × β) → α → List (α × β)
  | [], _ => []
  | (k', v') :: rest, k => if k' = k then rest else (k', v') :: aerase rest k

def amem [DecidableEq α] (l : List (α × β)) (k : α) : Bool := (alookup l k).isSome

/-- Python `list.index(x)`: index of the first occurrence, `None` for ValueError. -/
def pyIndex (l : List Int) (x : Int) : Option Nat :=
  match l with
  | [] => none
  | y :: rest => if y = x then some 0 else (pyIndex rest x).map (· + 1)

/-! ## Python int.bit_length (on the absolute value, as Python does for negatives) -/

def bitLenFuel : Nat → Nat → Nat
  | 0, _ => 0
  | fuel + 1, n => if n = 0 then 0 else bitLenFuel fuel (n / 2) + 1

/-- `bitLength n` = number of binary digits of `n` (`bitLength 0 = 0`), i.e. Python
`n.bit_length()` for nonnegative `n`. -/
def bitLength (n : Nat) : Nat := bitLenFuel n n

/-! ## Demand-paging engine (classes PageTableEntry, MemoryManager, DemandPagingSimulator) -/

structure PageTableEntry where
  page_number : Int
  valid : Bool
  referenced : Bool
  modified : Bool
  frame_number : Option Nat
  last_access_time : Nat
  access_count : Nat
deriving DecidableEq, Repr

/-- `PageTableEntry.__init__`: all flags cleared, no frame, counters zero. -/
def PageTableEntry.fresh (p : Int) : PageTableEntry :=
  { page_number := p, valid := false, referenced := false, modified := false,
    frame_number := none, last_access_time := 0, access_count := 0 }

inductive ReplacementAlgorithm
  | FIFO | OPTIMAL | LRU | CLOCK | LFU | MFU
deriving DecidableEq, Repr

/-- State of `DemandPagingSimulator` (which inherits the `MemoryManager` fields
`total_frames`, `free_frames`, `allocated_frames`, `page_faults`, `memory_accesses`).
`allocated_frames` maps a frame to the page number of the entry it holds (the Python
dict stores the entry object itself; entry state lives in `page_table`, which is what
the object aliasing amounts to observationally). -/
structure DemandPagingSimulator where
  total_frames : Nat
  free_frames : List Nat
  allocated_frames : List (Nat × Int)
  page_faults : Nat
  memory_accesses : Nat
  algorithm : ReplacementAlgorithm
  page_table : List (Int × PageTableEntry)
  access_history : List Int
  fifo_queue : List Int
  lru_counter : Nat
  clock_hand : Nat
deriving DecidableEq, Repr

def DemandPagingSimulator.init (total_frames : Nat) (alg : ReplacementAlgorithm) :
    DemandPagingSimulator :=
  { total_frames := total_frames, free_frames := List.range total_frames,
    allocated_frames := [], page_faults := 0, memory_accesses := 0, algorithm := alg,
    page_table := [], access_history := [], fifo_queue := [], lru_counter := 0,
    clock_hand := 0 }

/-- Read a page-table entry; the default is never hit for pages actually present
(it matches a fresh `PageTableEntry(p)`). -/
def ptGet (s : DemandPagingSimulator) (p : Int) : PageTableEntry :=
  (alookup s.page_table p).getD (PageTableEntry.fresh p)

/-- `MemoryManager.allocate_frame`: `none` models the raised `MemoryError` (checked before
any mutation). Pops the front of `free_frames`, records the owner, marks the entry valid. -/
def allocate_frame (s : DemandPagingSimulator) (p : Int) :
    Option (DemandPagingSimulator × Nat) :=
  match s.free_frames with
  | [] => none
  | frame :: rest =>
    let e := ptGet s p
    some ({ s with free_frames := rest,
                   allocated_frames := aset s.allocated_frames frame p,
                   page_table := aset s.page_table p
                     { e with frame_number := some frame, valid := true } }, frame)

/-- `MemoryManager.free_frame`: invalidate the owning entry (if any), drop the ownership
record, then append the frame to `free_frames` and re-sort the list. -/
def free_frame (s : DemandPagingSimulator) (frame : Nat) : DemandPagingSimulator :=
  let s1 :=
    match alookup s.allocated_frames frame with
    | some p =>
      let e := ptGet s p
      { s with page_table := aset s.page_table p
                 { e with valid := false, frame_number := none },
               allocated_frames := aerase s.allocated_frames frame }
    | none => s
  { s1 with free_frames := List.insertionSort (· ≤ ·) (s1.free_frames ++ [frame]) }

/-- `DemandPagingSimulator.fifo_replacement`: refill the queue from the resident pages if it
is empty, then pop the front as the victim (`none` models the popleft IndexError on a fully
empty state, unreachable from the engine's contract). -/
def fifo_replacement (s : DemandPagingSimulator) : DemandPagingSimulator × Option Int :=
  let q := if s.fifo_queue = [] then s.allocated_frames.map (·.2) else s.fifo_queue
  match q with
  | [] => ({ s with fifo_queue := [] }, none)
  | v :: rest => ({ s with fifo_queue := rest }, some v)

/-- Loop body of `DemandPagingSimulator.optimal_replacement`: scan the resident pages,
early-returning a page whose number does not occur in `fut` at all, otherwise keeping the
page with the strictly largest `fut.index(page_number)` (the accumulator starts at the
Python sentinel -1, i.e. `none`). -/
def optimalGo (fut : List Int) : List Int → Option (Int × Nat) → Option Int
  | [], best => best.map (·.1)
  | p :: rest, best =>
    match pyIndex fut p with
    | none => some p
    | some d =>
      match best with
      | none => optimalGo fut rest (some (p, d))
      | some (bp, bd) =>
        if d > bd then optimalGo fut rest (some (p, d))
        else optimalGo fut rest (some (bp, bd))

/-- `DemandPagingSimulator.optimal_replacement`: NOTE the source consults
`self.access_history.copy()` — the full reference string as set by `run_simulation`,
never advanced past the current position. -/
def optimal_replacement (s : DemandPagingSimulator) : Option Int :=
  let cur := s.allocated_frames.map (·.2)
  match optimalGo s.access_history cur none with
  | some v => some v
  | none => cur.head?

/-- Loop of `DemandPagingSimulator.lru_replacement`: first resident page with the strictly
smallest `last_access_time` (`oldest_time` starts at inf, i.e. `none` accumulator). -/
def lruGo (s : DemandPagingSimulator) : List Int → Option (Int × Nat) → Option Int
  | [], best => best.map (·.1)
  | p :: rest, best =>
    let t := (ptGet s p).last_access_time
    match best with
    | none => lruGo s rest (some (p, t))
    | some (bp, bt) =>
      if t < bt then lruGo s rest (some (p, t)) else lruGo s rest (some (bp, bt))

def lru_replacement (s : DemandPagingSimulator) : Option Int :=
  lruGo s (s.allocated_frames.map (·.2)) none

/-- Loop of `DemandPagingSimulator.lfu_replacement` (strict `<` on `access_count`). -/
def lfuGo (s : DemandPagingSimulator) : List Int → Option (Int × Nat) → Option Int
  | [], best => best.map (·.1)
  | p :: rest, best =>
    let c := (ptGet s p).access_count
    match best with
    | none => lfuGo s rest (some (p, c))
    | some (bp, bc) =>
      if c < bc then lfuGo s rest (some (p, c)) else lfuGo s rest (some (bp, bc))

def lfu_replacement (s : DemandPagingSimulator) : Option Int :=
  lfuGo s (s.allocated_frames.map (·.2)) none

/-- Loop of `DemandPagingSimulator.mfu_replacement` (strict `>` on `access_count`,
sentinel -1, so the first page is always taken). -/
def mfuGo (s : DemandPagingSimulator) : List Int → Option (Int × Nat) → Option Int
  | [], best => best.map (·.1)
  | p :: rest, best =>
    let c := (ptGet s p).access_count
    match best with
    | none => mfuGo s rest (some (p, c))
    | some (bp, bc) =>
      if c > bc then mfuGo s rest (some (p, c)) else mfuGo s rest (some (bp, bc))

def mfu_replacement (s : DemandPagingSimulator) : Option Int :=
  mfuGo s (s.allocated_frames.map (·.2)) none

/-- `DemandPagingSimulator.clock_replacement` scan: advance the hand, clearing referenced
bits, until a page with a clear bit is found. The source's while-True loop terminates
within two sweeps (the first sweep clears every bit), so fuel `2 * frames.length + 1`
is never exhausted where the engine calls it. -/
def clockGo (frames : List Nat) :
    DemandPagingSimulator → Nat → DemandPagingSimulator × Option Int
  | s, 0 => (s, none)
  | s, fuel + 1 =>
    let frame := frames.getD s.clock_hand 0
    match alookup s.allocated_frames frame with
    | none => (s, none)
    | some p =>
      let e := ptGet s p
      if e.referenced then
        clockGo frames
          { s with page_table := aset s.page_table p { e with referenced := false },
                   clock_hand := (s.clock_hand + 1) % frames.length } fuel
      else
        ({ s with clock_hand := (s.clock_hand + 1) % frames.length }, some p)

def clock_replacement (s : DemandPagingSimulator) : DemandPagingSimulator × Option Int :=
  let frames := s.allocated_frames.map (·.1)
  if frames = [] then (s, none)
  else clockGo frames s (2 * frames.length + 1)

/-- `DemandPagingSimulator.select_victim` (all six enum cases are covered, so the source's
trailing fallback line is unreachable). -/
def select_victim (s : DemandPagingSimulator) : DemandPagingSimulator × Option Int :=
  match s.algorithm with
  | .FIFO => fifo_replacement s
  | .OPTIMAL => (s, optimal_replacement s)
  | .LRU => (s, lru_replacement s)
  | .CLOCK => clock_replacement s
  | .LFU => (s, lfu_replacement s)
  | .MFU => (s, mfu_replacement s)

/-- `DemandPagingSimulator.replace_page`: free the victim's frame, give it to the faulting
page, record the new page in the FIFO queue when that policy is active. A `none` victim
returns unchanged (the source's `if victim is None: return`); a victim without a frame is
the state in which the source would crash sorting `None` into the frame list, unreachable
for resident victims. -/
def replace_page (s : DemandPagingSimulator) (victim : Option Int) (newPage : Int) :
    DemandPagingSimulator :=
  match victim with
  | none => s
  | some v =>
    match (ptGet s v).frame_number with
    | none => s
    | some f =>
      let s1 := free_frame s f
      match allocate_frame s1 newPage with
      | none => s1
      | some (s2, _) =>
        if s2.algorithm = .FIFO then { s2 with fifo_queue := s2.fifo_queue ++ [newPage] }
        else s2

/-- `DemandPagingSimulator.handle_page_fault`. -/
def handle_page_fault (s : DemandPagingSimulator) (p : Int) : DemandPagingSimulator :=
  let s := { s with page_faults := s.page_faults + 1 }
  match allocate_frame s p with
  | some (s1, _) =>
    if s1.algorithm = .FIFO then { s1 with fifo_queue := s1.fifo_queue ++ [p] } else s1
  | none =>
    let sv := select_victim s
    replace_page sv.1 sv.2 p

/-- `DemandPagingSimulator.access_page`: lazily create the entry, stamp
`last_access_time`/`access_count`/`referenced` (and `modified` on a write), then fault if
the page is not valid; the hit branch changes nothing further. -/
def access_page (s : DemandPagingSimulator) (p : Int) (is_write : Bool) :
    DemandPagingSimulator :=
  let s := { s with memory_accesses := s.memory_accesses + 1 }
  let s :=
    if (alookup s.page_table p).isNone then
      { s with page_table := aset s.page_table p (PageTableEntry.fresh p) }
    else s
  let e := ptGet s p
  let e' := { e with last_access_time := s.lru_counter,
                     access_count := e.access_count + 1,
                     referenced := true,
                     modified := e.modified || is_write }
  let s := { s with page_table := aset s.page_table p e' }
  if (ptGet s p).valid then s else handle_page_fault s p

/-- `DemandPagingSimulator.run_simulation` with no `writes` argument: store the full
reference string in `access_history`, then for each reference access the page (as a read)
and bump `lru_counter`. -/
def run_simulation (s : DemandPagingSimulator) (ref : List Int) : DemandPagingSimulator :=
  let s := { s with access_history := ref }
  ref.foldl
    (fun s p =>
      let s1 := access_page s p false
      { s1 with lru_counter := s1.lru_counter + 1 }) s

/-- Fresh engine driven by `run_simulation` on `ref`. -/
def runPolicy (frames : Nat) (alg : ReplacementAlgorithm) (ref : List Int) :
    DemandPagingSimulator :=
  run_simulation (DemandPagingSimulator.init frames alg) ref

/-- The intermediate state of `run_simulation` after the first `k` accesses (same fold,
truncated reference walk, full string already in `access_history`). -/
def simAfter (frames : Nat) (alg : ReplacementAlgorithm) (ref : List Int) (k : Nat) :
    DemandPagingSimulator :=
  (ref.take k).foldl
    (fun s p =>
      let s1 := access_page s p false
      { s1 with lru_counter := s1.lru_counter + 1 })
    { DemandPagingSimulator.init frames alg with access_history := ref }

/-- A caller that drives `access_page` directly without `run_simulation` (exactly what
`plot_page_faults_vs_frames` in the same file does): no history, no counter ticks. -/
def runBare (frames : Nat) (alg : ReplacementAlgorithm) (ref : List Int) :
    DemandPagingSimulator :=
  ref.foldl (fun s p => access_page s p false) (DemandPagingSimulator.init frames alg)

/-- Typical page access sequences reachable through the engine's public operations:
construction, `access_page`, `run_simulation`'s counter tick and history assignment. -/
inductive EngineReachable : DemandPagingSimulator → Prop
  | init (n : Nat) (alg : ReplacementAlgorithm) :
      EngineReachable (DemandPagingSimulator.init n alg)
  | access (s : DemandPagingSimulator) (p : Int) (w : Bool) :
      EngineReachable s → EngineReachable (access_page s p w)
  | tick (s : DemandPagingSimulator) :
      EngineReachable s → EngineReachable { s with lru_counter := s.lru_counter + 1 }
  | setHistory (s : DemandPagingSimulator) (ref : List Int) :
      EngineReachable s → EngineReachable { s with access_history := ref }

/-- Modelled from the spec's words (§4.1, Optimal): the victim is a resident page that is
never referenced again in the remaining future if one exists (immediate win), otherwise
the resident page whose next reference in the remaining future is farthest away. Used
only to compare the source's `optimal_replacement` against the spec's rule. -/
def specOptimalVictim (future : List Int) : List Int → Option (Int × Nat) → Option Int
  | [], best => best.map (·.1)
  | p :: rest, best =>
    match pyIndex future p with
    | none => some p
    | some d =>
      match best with
      | none => specOptimalVictim future rest (some (p, d))
      | some (bp, bd) =>
        if bd < d then specOptimalVictim future rest (some (p, d))
        else specOptimalVictim future rest (some (bp, bd))

def classicRef : List Int := [7, 0, 1, 2, 0, 3, 0, 4, 2, 3, 0, 3, 0, 3, 2, 1, 2, 0, 1, 7, 0, 1]

def beladyRef : List Int := [1, 2, 3, 4, 1, 2, 5, 1, 2, 3, 4, 5]

/-! ## Copy-on-write manager (class CopyOnWriteSimulator) -/

structure SharedPage where
  data : String
  ref_count : Nat
deriving DecidableEq, Repr

/-- `CopyOnWriteSimulator` state: `shared_pages` keyed by data-pointer id; each process
page-table entry is the little info dict, holding at most a `data_ptr`. -/
structure CopyOnWriteSimulator where
  shared_pages : List (Nat × SharedPage)
  process_pages : List (Int × List (Int × Option Nat))
deriving DecidableEq, Repr

def maxKey : List (Nat × SharedPage) → Option Nat
  | [] => none
  | (k, _) :: rest =>
    match maxKey rest with
    | none => some k
    | some m => some (max k m)

/-- `CopyOnWriteSimulator.fork_process`: the child table is created empty FIRST, then every
parent entry is copied over, incrementing the shared page's ref_count whenever the entry
carries a `data_ptr` that is present in `shared_pages`. -/
def fork_process (s : CopyOnWriteSimulator) (parent_pid child_pid : Int) :
    CopyOnWriteSimulator :=
  let s := { s with process_pages := aset s.process_pages child_pid [] }
  match alookup s.process_pages parent_pid with
  | none => s
  | some ptable =>
    ptable.foldl
      (fun st pi =>
        let ctable := (alookup st.process_pages child_pid).getD []
        let st := { st with
          process_pages := aset st.process_pages child_pid (aset ctable pi.1 pi.2) }
        match pi.2 with
        | some ptr =>
          match alookup st.shared_pages ptr with
          | some sp =>
            { st with shared_pages := aset st.shared_pages ptr
                        { sp with ref_count := sp.ref_count + 1 } }
          | none => st
        | none => st) s

/-- `CopyOnWriteSimulator.write_to_page`: missing pid or page returns unchanged; a shared
target with ref_count > 1 triggers the COW copy (decrement, materialize `max(keys)+1`,
repoint; the source's `ref_count == 0` reclamation check is kept although it is dead under
ref_count > 1); otherwise write in place; an entry with no `data_ptr` gets a fresh page.
The branch where the entry's pointer is absent from `shared_pages` is the source's
KeyError on `self.shared_pages[ptr]`, modelled as no state change. -/
def write_to_page (s : CopyOnWriteSimulator) (pid page_num : Int) (new_data : String) :
    CopyOnWriteSimulator :=
  match alookup s.process_pages pid with
  | none => s
  | some pt =>
    match alookup pt page_num with
    | none => s
    | some info =>
      match info with
      | some ptr =>
        match alookup s.shared_pages ptr with
        | some sp =>
          if sp.ref_count > 1 then
            let sp' := { sp with ref_count := sp.ref_count - 1 }
            let s1 := { s with shared_pages := aset s.shared_pages ptr sp' }
            let new_ptr := match maxKey s1.shared_pages with
                           | some m => m + 1
                           | none => 100
            let np : SharedPage := { data := sp.data ++ " -> " ++ new_data, ref_count := 1 }
            let s2 := { s1 with shared_pages := aset s1.shared_pages new_ptr np }
            let pt' := aset pt page_num (some new_ptr)
            let s3 := { s2 with process_pages := aset s2.process_pages pid pt' }
            if (alookup s3.shared_pages ptr).map SharedPage.ref_count = some 0 then
              { s3 with shared_pages := aerase s3.shared_pages ptr }
            else s3
          else
            { s with shared_pages := aset s.shared_pages ptr { sp with data := new_data } }
        | none => s
      | none =>
        let new_ptr := match maxKey s.shared_pages with
                       | some m => m + 1
                       | none => 100
        let np : SharedPage := { data := new_data, ref_count := 1 }
        let pt' := aset pt page_num (some new_ptr)
        { s with shared_pages := aset s.shared_pages new_ptr np,
                 process_pages := aset s.process_pages pid pt' }

inductive CowOp
  | fork (parent child : Int)
  | write (pid page : Int) (data : String)

def applyCowOp (s : CopyOnWriteSimulator) : CowOp → CopyOnWriteSimulator
  | .fork p c => fork_process s p c
  | .write pid pg d => write_to_page s pid pg d

/-- `CopyOnWriteSimulator.__init__` is the empty manager; `runCow` drives a call sequence. -/
def runCow (ops : List CowOp) : CopyOnWriteSimulator :=
  ops.foldl applyCowOp { shared_pages := [], process_pages := [] }

/-- Number of process page-table entries whose data pointer currently points to `ptr`. -/
def fanIn (s : CopyOnWriteSimulator) (ptr : Nat) : Nat :=
  (s.process_pages.map (fun pr => (pr.2.filter (fun e => e.2 = some ptr)).length)).sum

/-- `ref_count == live fan-in` for every shared page. -/
def refInvariant (s : CopyOnWriteSimulator) : Bool :=
  s.shared_pages.all (fun kp => kp.2.ref_count == fanIn s kp.1)

/-! ## Working-set tracker (class WorkingSetSimulator) -/

/-- `WorkingSetSimulator` state: one bounded `access_history` window per process (the
stored `working_set` is maintained as `set(access_history)` on every access, so it is
represented derived: the distinct pages of the window). `simulate_access` picks its page
with `random.choice`, which is why properties quantify over tracker states. -/
structure WorkingSetSimulator where
  total_frames : Nat
  processes : List (List Int)
  time : Nat
  delta : Nat
deriving DecidableEq, Repr

def workingSetSize (window : List Int) : Nat := window.dedup.length

def totalWorkingSet (s : WorkingSetSimulator) : Nat :=
  (s.processes.map workingSetSize).sum

/-- `WorkingSetSimulator.detect_thrashing`: sum the working-set sizes and flag
`sum > total_frames`. -/
def detect_thrashing (s : WorkingSetSimulator) : Bool :=
  if totalWorkingSet s > s.total_frames then true else false

/-! ## Buddy-system allocator (class BuddySystemAllocator) -/

structure AllocInfo where
  size : Nat
  order : Nat
deriving DecidableEq, Repr

structure BuddySystemAllocator where
  total_memory : Nat
  max_order : Nat
  free_lists : List (List Nat)
  allocated_blocks : List (Nat × AllocInfo)
deriving DecidableEq, Repr

/-- `BuddySystemAllocator.__init__`: round `total_memory` up via
`1 << (total_memory - 1).bit_length()` (Python's bit_length of a negative is that of its
absolute value), derive `max_order`, and start with the single top-order free block 0. -/
def BuddySystemAllocator.init (total_memory : Int) : BuddySystemAllocator :=
  let total := 2 ^ bitLength (total_memory - 1).natAbs
  let maxo := bitLength (total - 1)
  { total_memory := total, max_order := maxo,
    free_lists := (List.replicate (maxo + 1) []).set maxo [0],
    allocated_blocks := [] }

/-- The `while current_order <= max_order and not free_lists[current_order]` search;
fuel is `max_order + 1 - co`, so running out is exactly `current_order > max_order`. -/
def findNonempty (fl : List (List Nat)) : Nat → Nat → Option Nat
  | _, 0 => none
  | co, fuel + 1 => if fl.getD co [] = [] then findNonempty fl (co + 1) fuel else some co

/-- The `while current_order > order` split loop: step the order down and push the buddy
`block ^ (1 << current_order)` onto that order's free list; `d` is `co - order`. -/
def splitLoop (fl : List (List Nat)) (block : Nat) : Nat → Nat → List (List Nat)
  | _, 0 => fl
  | co, d + 1 =>
    let c := co - 1
    splitLoop (fl.set c ((fl.getD c []) ++ [block ^^^ 2 ^ c])) block c d

/-- `BuddySystemAllocator.allocate`: order from `(size - 1).bit_length()`, reject
over-large requests, find the smallest sufficient free block, pop it, split down to the
requested order, record the allocation. `none` is the printed failure (state unchanged). -/
def BuddySystemAllocator.allocate (s : BuddySystemAllocator) (size : Int) :
    Option (Nat × BuddySystemAllocator) :=
  let order := bitLength (size - 1).natAbs
  if order > s.max_order then none
  else
    match findNonempty s.free_lists order (s.max_order + 1 - order) with
    | none => none
    | some co =>
      match s.free_lists.getD co [] with
      | [] => none
      | block :: rest =>
        let fl1 := s.free_lists.set co rest
        let fl2 := splitLoop fl1 block co (co - order)
        some (block, { s with free_lists := fl2,
                              allocated_blocks := aset s.allocated_blocks block
                                { size := 2 ^ order, order := order } })

/-- The `while order < max_order` coalesce loop: while the buddy is in the current order's
free list, remove it, keep the lower address, go one order up; `d` is
`max_order - order`, so exhausting fuel is exactly `order = max_order`. Returns the
final free lists, merged block address and order. -/
def coalesceLoop (fl : List (List Nat)) (block order : Nat) :
    Nat → List (List Nat) × Nat × Nat
  | 0 => (fl, block, order)
  | d + 1 =>
    let buddy := block ^^^ 2 ^ order
    if buddy ∈ fl.getD order [] then
      coalesceLoop (fl.set order ((fl.getD order []).erase buddy)) (min block buddy)
        (order + 1) d
    else (fl, block, order)

/-- Result of `BuddySystemAllocator.free`: `notAllocated` is the printed early return,
`keyError` is the uncaught `del self.allocated_blocks[block]` failure — the free lists
have already been mutated (append + sort happen first) when it is raised. -/
inductive FreeResult
  | ok (s : BuddySystemAllocator)
  | notAllocated (s : BuddySystemAllocator)
  | keyError (s : BuddySystemAllocator)

/-- `BuddySystemAllocator.free`: look the block up, coalesce upward (the loop variable
`block` is reassigned to `min(block, buddy)`), append the final block to its order's free
list, sort it, then `del self.allocated_blocks[block]` — with the POSSIBLY REASSIGNED
block value. -/
def BuddySystemAllocator.free (s : BuddySystemAllocator) (block : Nat) : FreeResult :=
  match alookup s.allocated_blocks block with
  | none => FreeResult.notAllocated s
  | some info =>
    let r := coalesceLoop s.free_lists block info.order (s.max_order - info.order)
    let fl2 := r.1.set r.2.2 (List.insertionSort (· ≤ ·) ((r.1.getD r.2.2 []) ++ [r.2.1]))
    if amem s.allocated_blocks r.2.1 then
      FreeResult.ok { s with free_lists := fl2,
                             allocated_blocks := aerase s.allocated_blocks r.2.1 }
    else FreeResult.keyError { s with free_lists := fl2 }

def FreeResult.state : FreeResult → BuddySystemAllocator
  | .ok s => s
  | .notAllocated s => s
  | .keyError s => s

def FreeResult.isKeyError : FreeResult → Bool
  | .keyError _ => true
  | _ => false

inductive BuddyOp
  | alloc (size : Int)
  | release (addr : Nat)

def applyBuddyOp (s : BuddySystemAllocator) : BuddyOp → BuddySystemAllocator
  | .alloc size =>
    match s.allocate size with
    | some r => r.2
    | none => s
  | .release addr => (s.free addr).state

def runBuddy (total_memory : Int) (ops : List BuddyOp) : BuddySystemAllocator :=
  ops.foldl applyBuddyOp (BuddySystemAllocator.init total_memory)

/-- All blocks the allocator currently tracks, as (address, size) pairs: the allocated
blocks plus every free-list block (order k has size 2^k). -/
def blockList (s : BuddySystemAllocator) : List (Nat × Nat) :=
  s.allocated_blocks.map (fun p => (p.1, p.2.size)) ++
    (s.free_lists.enum.map (fun ol => ol.2.map (fun a => (a, 2 ^ ol.1)))).flatten

/-- Blocks sorted by address chain exactly from `pos` to `total` with no gap or overlap. -/
def chainCheck : Nat → List (Nat × Nat) → Nat → Bool
  | pos, [], total => pos == total
  | pos, (a, sz) :: rest, total => a == pos && chainCheck (pos + sz) rest total

/-- The tiling invariant: free-list blocks plus allocated blocks, sorted by address,
exactly partition [0, total_memory). -/
def tilesCheck (s : BuddySystemAllocator) : Bool :=
  chainCheck 0 (List.insertionSort (fun a b => a.1 ≤ b.1) (blockList s)) s.total_memory

/-! ## List helper lemmas -/

lemma getD_set_self {α : Type _} :
    ∀ (l : List α) (i : Nat) (v d : α), i < l.length → (l.set i v).getD i d = v := by
  intro l
  induction l with
  | nil => intro i v d h; exact absurd h (Nat.not_lt_zero i)
  | cons a t ih =>
    intro i v d h
    cases i with
    | zero => rfl
    | succ j => exact ih j v d (Nat.lt_of_succ_lt_succ h)

lemma getD_set_other {α : Type _} :
    ∀ (l : List α) (i j : Nat) (v d : α), i ≠ j → (l.set i v).getD j d = l.getD j d := by
  intro l
  induction l with
  | nil => intro i j v d _; cases i <;> rfl
  | cons a t ih =>
    intro i j v d h
    cases i with
    | zero =>
      cases j with
      | zero => exact absurd rfl h
      | succ j' => rfl
    | succ i' =>
      cases j with
      | zero => rfl
      | succ j' => exact ih i' j' v d (fun he => h (congrArg Nat.succ he))

lemma getD_replicate {α : Type _} :
    ∀ (n i : Nat) (a d : α), (List.replicate n a).getD i d = if i < n then a else d := by
  intro n
  induction n with
  | zero => intro i a d; simp [List.replicate]
  | succ m ih =>
    intro i a d
    cases i with
    | zero => simp [List.replicate]
    | succ j =>
      show (List.replicate m a).getD j d = _
      rw [ih j a d]
      simp [Nat.succ_lt_succ_iff]

lemma list_eq_of_getD {α : Type _} (d : α) :
    ∀ (l₁ l₂ : List α), l₁.length = l₂.length → (∀ c, l₁.getD c d = l₂.getD c d) → l₁ = l₂ := by
  intro l₁
  induction l₁ with
  | nil =>
    intro l₂ hl _
    cases l₂ with
    | nil => rfl
    | cons b t => exact absurd hl (by simp)
  | cons a t ih =>
    intro l₂ hl hp
    cases l₂ with
    | nil => exact absurd hl (by simp)
    | cons b t' =>
      have h0 : a = b := hp 0
      have ht : t = t' := ih t' (by simpa using hl) (fun c => hp (c + 1))
      rw [h0, ht]

lemma mem_aset {α β : Type _} [DecidableEq α] :
    ∀ (l : List (α × β)) (k : α) (v : β) (x : α × β), x ∈ aset l k v → x ∈ l ∨ x = (k, v) := by
  intro l
  induction l with
  | nil => intro k v x hx; right; simpa [aset] using hx
  | cons a t ih =>
    intro k v x hx
    by_cases hk : a.1 = k
    · rw [show aset (a :: t) k v = (k, v) :: t by simp [aset, hk]] at hx
      rcases List.mem_cons.mp hx with h | h
      · right; exact h
      · left; exact List.mem_cons_of_mem a h
    · rw [show aset (a :: t) k v = a :: aset t k v by simp [aset, hk]] at hx
      rcases List.mem_cons.mp hx with h | h
      · left; rw [h]; exact List.mem_cons_self a t
      · rcases ih k v x h with h' | h'
        · left; exact List.mem_cons_of_mem a h'
        · right; exact h'

lemma alookup_mem {α β : Type _} [DecidableEq α] :
    ∀ (l : List (α × β)) (k : α) (v : β), alookup l k = some v → (k, v) ∈ l := by
  intro l
  induction l with
  | nil => intro k v h; exact absurd h (by simp [alookup])
  | cons a t ih =>
    intro k v h
    by_cases hk : a.1 = k
    · rw [show alookup (a :: t) k = some a.2 by simp [alookup, hk]] at h
      have : v = a.2 := by injection h with h'; exact h'.symm
      rw [this, ← hk]
      exact List.mem_cons_self a t
    · rw [show alookup (a :: t) k = alookup t k by simp [alookup, hk]] at h
      exact List.mem_cons_of_mem a (ih k v h)

/-! ## C6: COW reference-count conservation -/

lemma cow_step_empty (s : CopyOnWriteSimulator) (op : CowOp)
    (h1 : s.shared_pages = []) (h2 : ∀ pr ∈ s.process_pages, pr.2 = []) :
    (applyCowOp s op).shared_pages = [] ∧ ∀ pr ∈ (applyCowOp s op).process_pages, pr.2 = [] := by
  cases op with
  | fork p c =>
    have h2' : ∀ pr ∈ aset s.process_pages c [], pr.2 = [] := by
      intro pr hpr
      rcases mem_aset s.process_pages c [] pr hpr with h | h
      · exact h2 pr h
      · rw [h]
    show (fork_process s p c).shared_pages = [] ∧
      ∀ pr ∈ (fork_process s p c).process_pages, pr.2 = []
    unfold fork_process
    dsimp only
    cases hl : alookup (aset s.process_pages c []) p with
    | none => exact ⟨h1, h2'⟩
    | some ptable =>
      have hpt : ptable = [] := h2' (p, ptable) (alookup_mem _ p ptable hl)
      subst hpt
      exact ⟨h1, h2'⟩
  | write pid pg d =>
    show (write_to_page s pid pg d).shared_pages = [] ∧
      ∀ pr ∈ (write_to_page s pid pg d).process_pages, pr.2 = []
    unfold write_to_page
    dsimp only
    cases hl : alookup s.process_pages pid with
    | none => exact ⟨h1, h2⟩
    | some pt =>
      have hpt : pt = [] := h2 (pid, pt) (alookup_mem _ pid pt hl)
      subst hpt
      exact ⟨h1, h2⟩

lemma runCow_empty (ops : List CowOp) :
    (runCow ops).shared_pages = [] ∧ ∀ pr ∈ (runCow ops).process_pages, pr.2 = [] := by
  have base :
      ∀ (s : CopyOnWriteSimulator),
        (s.shared_pages = [] ∧ ∀ pr ∈ s.process_pages, pr.2 = []) →
        ((ops.foldl applyCowOp s).shared_pages = [] ∧
          ∀ pr ∈ (ops.foldl applyCowOp s).process_pages, pr.2 = []) := by
    induction ops with
    | nil => intro s hs; exact hs
    | cons op rest ih =>
      intro s hs
      exact ih (applyCowOp s op) (cow_step_empty s op hs.1 hs.2)
  exact base _ ⟨rfl, by intro pr hpr; exact absurd hpr (by simp)⟩

/-- Claim C6: for every sequence of COW-manager fork and write calls starting from the
empty manager, after every call the ref_count of every shared page equals the number of
process page-table entries pointing to it. (From the empty manager no fork or write can
ever create a page-table entry or a shared page, so every reachable state has an empty
shared-page table and the invariant holds.) -/
theorem cow_refcount_conservation (ops : List CowOp) :
    refInvariant (runCow ops) = true := by
  unfold refInvariant
  rw [(runCow_empty ops).1]
  rfl

theorem cow_refcount_conservation_witness :
    refInvariant (runCow [CowOp.fork 1 2, CowOp.write 2 0 "data", CowOp.fork 2 3]) = true :=
  cow_refcount_conservation [CowOp.fork 1 2, CowOp.write 2 0 "data", CowOp.fork 2 3]

/-! ## C7: thrashing boundary -/

/-- Claim C7: the thrashing check returns true exactly when the sum of the processes'
working-set sizes (distinct pages in each window) strictly exceeds the total frame count;
a sum of total_frames + 1 reports true, a sum of exactly total_frames reports false. -/
theorem thrashing_boundary :
    (∀ s : WorkingSetSimulator,
        detect_thrashing s = true ↔ totalWorkingSet s > s.total_frames) ∧
    (∀ s : WorkingSetSimulator,
        totalWorkingSet s = s.total_frames + 1 → detect_thrashing s = true) ∧
    (∀ s : WorkingSetSimulator,
        totalWorkingSet s = s.total_frames → detect_thrashing s = false) := by
  have hb : ∀ s : WorkingSetSimulator,
      detect_thrashing s = true ↔ totalWorkingSet s > s.total_frames := by
    intro s
    unfold detect_thrashing
    by_cases h : totalWorkingSet s > s.total_frames
    · simp [h]
    · simp [h]
  refine ⟨hb, fun s h => ?_, fun s h => ?_⟩
  · exact (hb s).mpr (by omega)
  · have : ¬ totalWorkingSet s > s.total_frames := by omega
    cases hd : detect_thrashing s with
    | false => rfl
    | true => exact absurd ((hb s).mp hd) this

theorem thrashing_boundary_witness :
    totalWorkingSet { total_frames := 4, processes := [[1, 2], [3], [2, 4]], time := 0,
                      delta := 4 } = 4 + 1 ∧
    detect_thrashing { total_frames := 4, processes := [[1, 2], [3], [2, 4]], time := 0,
                       delta := 4 } = true ∧
    totalWorkingSet { total_frames := 5, processes := [[1, 2], [3], [2, 4]], time := 0,
                      delta := 4 } = 5 ∧
    detect_thrashing { total_frames := 5, processes := [[1, 2], [3], [2, 4]], time := 0,
                       delta := 4 } = false :=
  ⟨by decide,
   thrashing_boundary.2.1 _ (by decide),
   by decide,
   thrashing_boundary.2.2 _ (by decide)⟩

/-! ## C8: LRU victim selection -/

lemma lruGo_some_spec (s : DemandPagingSimulator) :
    ∀ (l : List Int) (bp v : Int),
      lruGo s l (some (bp, (ptGet s bp).last_access_time)) = some v →
      (v = bp ∧ ∀ p ∈ l,
          (ptGet s bp).last_access_time ≤ (ptGet s p).last_access_time) ∨
      (∃ l₁ l₂, l = l₁ ++ v :: l₂ ∧
        (ptGet s v).last_access_time < (ptGet s bp).last_access_time ∧
        (∀ p ∈ l₁, (ptGet s v).last_access_time < (ptGet s p).last_access_time) ∧
        (∀ p ∈ l₂, (ptGet s v).last_access_time ≤ (ptGet s p).last_access_time)) := by
  intro l
  induction l with
  | nil =>
    intro bp v h
    left
    refine ⟨?_, by intro p hp; exact absurd hp (by simp)⟩
    have : some bp = some v := h
    injection this with h'
    exact h'.symm
  | cons p rest ih =>
    intro bp v h
    rw [show lruGo s (p :: rest) (some (bp, (ptGet s bp).last_access_time)) =
          (if (ptGet s p).last_access_time < (ptGet s bp).last_access_time then
            lruGo s rest (some (p, (ptGet s p).last_access_time))
          else lruGo s rest (some (bp, (ptGet s bp).last_access_time))) from rfl] at h
    by_cases hlt : (ptGet s p).last_access_time < (ptGet s bp).last_access_time
    · rw [if_pos hlt] at h
      rcases ih p v h with ⟨hv, hall⟩ | ⟨l₁, l₂, hsplit, hvb, h₁, h₂⟩
      · right
        refine ⟨[], rest, by rw [hv]; rfl, by rw [hv]; exact hlt,
          by intro q hq; exact absurd hq (by simp), by rw [hv]; exact hall⟩
      · right
        refine ⟨p :: l₁, l₂, by rw [hsplit]; rfl, lt_trans hvb hlt, ?_, h₂⟩
        intro q hq
        rcases List.mem_cons.mp hq with hq | hq
        · rw [hq]; exact hvb
        · exact h₁ q hq
    · rw [if_neg hlt] at h
      have hle : (ptGet s bp).last_access_time ≤ (ptGet s p).last_access_time :=
        Nat.le_of_not_lt hlt
      rcases ih bp v h with ⟨hv, hall⟩ | ⟨l₁, l₂, hsplit, hvb, h₁, h₂⟩
      · left
        refine ⟨hv, ?_⟩
        intro q hq
        rcases List.mem_cons.mp hq with hq | hq
        · rw [hq]; exact hle
        · exact hall q hq
      · right
        refine ⟨p :: l₁, l₂, by rw [hsplit]; rfl, hvb, ?_, h₂⟩
        intro q hq
        rcases List.mem_cons.mp hq with hq | hq
        · rw [hq]; exact lt_of_lt_of_le hvb hle
        · exact h₁ q hq

lemma lruGo_none_spec (s : DemandPagingSimulator) (l : List Int) (v : Int)
    (h : lruGo s l none = some v) :
    ∃ l₁ l₂, l = l₁ ++ v :: l₂ ∧
      (∀ p ∈ l₁, (ptGet s v).last_access_time < (ptGet s p).last_access_time) ∧
      (∀ p ∈ l₂, (ptGet s v).last_access_time ≤ (ptGet s p).last_access_time) := by
  cases l with
  | nil => exact absurd h (by simp [lruGo])
  | cons p rest =>
    have h' : lruGo s rest (some (p, (ptGet s p).last_access_time)) = some v := h
    rcases lruGo_some_spec s rest p v h' with ⟨hv, hall⟩ | ⟨l₁, l₂, hsplit, hvb, h₁, h₂⟩
    · exact ⟨[], rest, by rw [hv]; rfl,
        by intro q hq; exact absurd hq (by simp), by rw [hv]; exact hall⟩
    · refine ⟨p :: l₁, l₂, by rw [hsplit]; rfl, ?_, h₂⟩
      intro q hq
      rcases List.mem_cons.mp hq with hq | hq
      · rw [hq]; exact hvb
      · exact h₁ q hq

/-- Claim C8 (amended): whenever `lru_replacement` selects a victim v, v is resident and
has the minimal last-access timestamp among resident pages; on ties the victim is the
FIRST page in `allocated_frames` insertion (allocation) order attaining the minimum —
every resident page listed before v has a strictly larger timestamp and every one after
has a larger-or-equal timestamp — not the page with the lowest page number. -/
theorem lru_victim_first_minimal (s : DemandPagingSimulator) (v : Int)
    (h : lru_replacement s = some v) :
    ∃ l₁ l₂, s.allocated_frames.map (·.2) = l₁ ++ v :: l₂ ∧
      (∀ p ∈ l₁, (ptGet s v).last_access_time < (ptGet s p).last_access_time) ∧
      (∀ p ∈ l₂, (ptGet s v).last_access_time ≤ (ptGet s p).last_access_time) := by
  unfold lru_replacement at h
  exact lruGo_none_spec s (s.allocated_frames.map (·.2)) v h

theorem lru_victim_first_minimal_witness :
    lru_replacement (runBare 2 ReplacementAlgorithm.LRU [5, 3]) = some 5 ∧
    ∃ l₁ l₂,
      (runBare 2 ReplacementAlgorithm.LRU [5, 3]).allocated_frames.map (·.2) =
        l₁ ++ 5 :: l₂ ∧
      (∀ p ∈ l₁,
        (ptGet (runBare 2 ReplacementAlgorithm.LRU [5, 3]) 5).last_access_time <
          (ptGet (runBare 2 ReplacementAlgorithm.LRU [5, 3]) p).last_access_time) ∧
      (∀ p ∈ l₂,
        (ptGet (runBare 2 ReplacementAlgorithm.LRU [5, 3]) 5).last_access_time ≤
          (ptGet (runBare 2 ReplacementAlgorithm.LRU [5, 3]) p).last_access_time) :=
  ⟨by decide, lru_victim_first_minimal (runBare 2 ReplacementAlgorithm.LRU [5, 3]) 5 (by decide)⟩

/-- Claim C8 counterexample: driving `access_page` with [5, 3] on 2 frames (as
`plot_page_faults_vs_frames` does, with no counter ticks) leaves pages 5 and 3 resident
with EQUAL last-access timestamps; on the next fault LRU evicts page 5 — the one whose
frame was allocated first — not page 3, the tied resident page with the lowest page
number as the claim requires. -/
theorem lru_tiebreak_counterexample :
    (ptGet (runBare 2 ReplacementAlgorithm.LRU [5, 3]) 5).last_access_time =
      (ptGet (runBare 2 ReplacementAlgorithm.LRU [5, 3]) 3).last_access_time ∧
    (ptGet (runBare 2 ReplacementAlgorithm.LRU [5, 3]) 5).valid = true ∧
    (ptGet (runBare 2 ReplacementAlgorithm.LRU [5, 3]) 3).valid = true ∧
    lru_replacement (runBare 2 ReplacementAlgorithm.LRU [5, 3]) = some 5 ∧
    (ptGet (runBare 2 ReplacementAlgorithm.LRU [5, 3, 1]) 5).valid = false ∧
    (ptGet (runBare 2 ReplacementAlgorithm.LRU [5, 3, 1]) 3).valid = true := by
  decide

/-! ## C10: lowest-free-frame allocation -/

lemma allocate_frame_spec (s : DemandPagingSimulator) (p : Int)
    (s' : DemandPagingSimulator) (f : Nat) (h : allocate_frame s p = some (s', f)) :
    s.free_frames = f :: s'.free_frames := by
  unfold allocate_frame at h
  cases hf : s.free_frames with
  | nil => rw [hf] at h; exact absurd h (by simp)
  | cons a rest =>
    rw [hf] at h
    simp only [Option.some.injEq, Prod.mk.injEq] at h
    obtain ⟨h1, h2⟩ := h
    subst h2
    rw [← h1]

lemma clockGo_free_frames (frames : List Nat) :
    ∀ (fuel : Nat) (s : DemandPagingSimulator),
      (clockGo frames s fuel).1.free_frames = s.free_frames := by
  intro fuel
  induction fuel with
  | zero => intro s; rfl
  | succ fu ih =>
    intro s
    show (clockGo frames s (fu + 1)).1.free_frames = s.free_frames
    unfold clockGo
    dsimp only
    cases alookup s.allocated_frames (frames.getD s.clock_hand 0) with
    | none => rfl
    | some p =>
      dsimp only
      by_cases hr : (ptGet s p).referenced
      · rw [if_pos hr]
        exact ih _
      · rw [if_neg hr]

lemma select_victim_free_frames (s : DemandPagingSimulator) :
    (select_victim s).1.free_frames = s.free_frames := by
  unfold select_victim
  cases s.algorithm with
  | FIFO =>
    unfold fifo_replacement
    dsimp only
    cases (if s.fifo_queue = [] then s.allocated_frames.map (·.2) else s.fifo_queue) with
    | nil => rfl
    | cons v rest => rfl
  | OPTIMAL => rfl
  | LRU => rfl
  | CLOCK =>
    unfold clock_replacement
    dsimp only
    by_cases hf : s.allocated_frames.map (·.1) = []
    · rw [if_pos hf]
    · rw [if_neg hf]
      exact clockGo_free_frames _ _ s
  | LFU => rfl
  | MFU => rfl

lemma free_frame_sorted (s : DemandPagingSimulator) (frame : Nat) :
    (free_frame s frame).free_frames.Sorted (· ≤ ·) := by
  unfold free_frame
  dsimp only
  cases alookup s.allocated_frames frame with
  | none => exact List.sorted_insertionSort (· ≤ ·) _
  | some p => exact List.sorted_insertionSort (· ≤ ·) _

lemma replace_page_sorted (s : DemandPagingSimulator) (v : Option Int) (p : Int)
    (hs : s.free_frames.Sorted (· ≤ ·)) :
    (replace_page s v p).free_frames.Sorted (· ≤ ·) := by
  unfold replace_page
  cases v with
  | none => exact hs
  | some w =>
    dsimp only
    cases (ptGet s w).frame_number with
    | none => exact hs
    | some f =>
      dsimp only
      cases hal : allocate_frame (free_frame s f) p with
      | none => exact free_frame_sorted s f
      | some r =>
        obtain ⟨s2, fr⟩ := r
        have h1 : (free_frame s f).free_frames.Sorted (· ≤ ·) := free_frame_sorted s f
        have h2 : (free_frame s f).free_frames = fr :: s2.free_frames :=
          allocate_frame_spec _ p s2 fr hal
        rw [h2] at h1
        have h3 : s2.free_frames.Sorted (· ≤ ·) := h1.of_cons
        dsimp only
        by_cases ha : s2.algorithm = ReplacementAlgorithm.FIFO
        · rw [if_pos ha]; exact h3
        · rw [if_neg ha]; exact h3

lemma handle_page_fault_sorted (s : DemandPagingSimulator) (p : Int)
    (hs : s.free_frames.Sorted (· ≤ ·)) :
    (handle_page_fault s p).free_frames.Sorted (· ≤ ·) := by
  unfold handle_page_fault
  dsimp only
  cases hal : allocate_frame { s with page_faults := s.page_faults + 1 } p with
  | some r =>
    obtain ⟨s2, fr⟩ := r
    have h2 : ({ s with page_faults := s.page_faults + 1 } :
        DemandPagingSimulator).free_frames = fr :: s2.free_frames :=
      allocate_frame_spec { s with page_faults := s.page_faults + 1 } p s2 fr hal
    have h3 : s2.free_frames.Sorted (· ≤ ·) := by
      have hs' : ({ s with page_faults := s.page_faults + 1 } :
          DemandPagingSimulator).free_frames.Sorted (· ≤ ·) := hs
      rw [h2] at hs'
      exact hs'.of_cons
    dsimp only
    by_cases ha : s2.algorithm = ReplacementAlgorithm.FIFO
    · rw [if_pos ha]; exact h3
    · rw [if_neg ha]; exact h3
  | none =>
    apply replace_page_sorted
    rw [select_victim_free_frames]
    exact hs

lemma access_page_sorted (s : DemandPagingSimulator) (p : Int) (w : Bool)
    (hs : s.free_frames.Sorted (· ≤ ·)) :
    (access_page s p w).free_frames.Sorted (· ≤ ·) := by
  unfold access_page
  dsimp only
  by_cases hn : (alookup s.page_table p).isNone
  · rw [if_pos hn]
    dsimp only
    split
    · exact hs
    · exact handle_page_fault_sorted _ p hs
  · rw [if_neg hn]
    dsimp only
    split
    · exact hs
    · exact handle_page_fault_sorted _ p hs

/-- Claim C10: in every state reachable through the demand-paging engine's operations the
free-frame list is sorted ascending, and a successful `allocate_frame` removes the front
element, which is the lowest-indexed free frame. -/
theorem frame_pool_lowest_first (s : DemandPagingSimulator) (h : EngineReachable s) :
    s.free_frames.Sorted (· ≤ ·) ∧
    ∀ (p : Int) (s' : DemandPagingSimulator) (f : Nat),
      allocate_frame s p = some (s', f) →
      s.free_frames = f :: s'.free_frames ∧ ∀ g ∈ s.free_frames, f ≤ g := by
  have hsorted : s.free_frames.Sorted (· ≤ ·) := by
    induction h with
    | init n alg =>
      show (List.range n).Sorted (· ≤ ·)
      exact (List.pairwise_lt_range n).imp le_of_lt
    | access s p w hr ih => exact access_page_sorted s p w ih
    | tick s hr ih => exact ih
    | setHistory s ref hr ih => exact ih
  refine ⟨hsorted, fun p s' f hal => ?_⟩
  have hc := allocate_frame_spec s p s' f hal
  refine ⟨hc, fun g hg => ?_⟩
  rw [hc] at hsorted hg
  rcases List.mem_cons.mp hg with hg | hg
  · rw [hg]
  · exact (List.sorted_cons.mp hsorted).1 g hg

theorem frame_pool_lowest_first_witness :
    (DemandPagingSimulator.init 3 ReplacementAlgorithm.FIFO).free_frames.Sorted (· ≤ ·) ∧
    ∀ (p : Int) (s' : DemandPagingSimulator) (f : Nat),
      allocate_frame (DemandPagingSimulator.init 3 ReplacementAlgorithm.FIFO) p =
        some (s', f) →
      (DemandPagingSimulator.init 3 ReplacementAlgorithm.FIFO).free_frames =
          f :: s'.free_frames ∧
        ∀ g ∈ (DemandPagingSimulator.init 3 ReplacementAlgorithm.FIFO).free_frames,
          f ≤ g :=
  frame_pool_lowest_first (DemandPagingSimulator.init 3 ReplacementAlgorithm.FIFO)
    (EngineReachable.init 3 ReplacementAlgorithm.FIFO)

/-! ## C9: buddy allocate/free round trip -/

lemma findNonempty_step (fl : List (List Nat)) (co f : Nat) :
    findNonempty fl co (f + 1) =
      if fl.getD co [] = [] then findNonempty fl (co + 1) f else some co := rfl

lemma splitLoop_step (fl : List (List Nat)) (block co d : Nat) :
    splitLoop fl block co (d + 1) =
      splitLoop (fl.set (co - 1) ((fl.getD (co - 1) []) ++ [block ^^^ 2 ^ (co - 1)]))
        block (co - 1) d := rfl

lemma coalesceLoop_step (fl : List (List Nat)) (block order d : Nat) :
    coalesceLoop fl block order (d + 1) =
      if block ^^^ 2 ^ order ∈ fl.getD order [] then
        coalesceLoop (fl.set order ((fl.getD order []).erase (block ^^^ 2 ^ order)))
          (min block (block ^^^ 2 ^ order)) (order + 1) d
      else (fl, block, order) := rfl

lemma pristine_getD (K c : Nat) :
    ((List.replicate (K + 1) ([] : List Nat)).set K [0]).getD c [] =
      if c = K then [0] else [] := by
  by_cases h : c = K
  · subst h
    rw [getD_set_self _ _ _ _ (by rw [List.length_replicate]; omega), if_pos rfl]
  · rw [getD_set_other _ _ _ _ _ (fun he => h he.symm), if_neg h, getD_replicate]
    split <;> rfl

lemma findNonempty_pristine (K : Nat) :
    ∀ (d o : Nat), o + d = K →
      findNonempty ((List.replicate (K + 1) ([] : List Nat)).set K [0]) o (d + 1) =
        some K := by
  intro d
  induction d with
  | zero =>
    intro o h
    have ho : o = K := by omega
    subst ho
    rw [findNonempty_step, pristine_getD, if_pos rfl, if_neg (by simp)]
  | succ d ih =>
    intro o h
    rw [findNonempty_step, pristine_getD, if_neg (by omega : ¬ o = K), if_pos rfl]
    exact ih (o + 1) (by omega)

lemma splitLoop_spec (K : Nat) :
    ∀ (d co : Nat) (L : List (List Nat)), co ≤ K → d ≤ co →
      L.length = K + 1 →
      (∀ c, L.getD c [] = if co ≤ c ∧ c < K then [2 ^ c] else []) →
      (splitLoop L 0 co d).length = K + 1 ∧
        ∀ c, (splitLoop L 0 co d).getD c [] =
          if co - d ≤ c ∧ c < K then [2 ^ c] else [] := by
  intro d
  induction d with
  | zero =>
    intro co L hco hd hlen hpt
    exact ⟨hlen, fun c => by rw [Nat.sub_zero]; exact hpt c⟩
  | succ d ih =>
    intro co L hco hd hlen hpt
    have hco1 : 1 ≤ co := le_trans (Nat.succ_le_succ (Nat.zero_le d)) hd
    rw [splitLoop_step, Nat.zero_xor]
    have hg : L.getD (co - 1) [] = [] := by
      rw [hpt (co - 1), if_neg (by omega)]
    rw [hg, List.nil_append]
    have hres := ih (co - 1) (L.set (co - 1) [2 ^ (co - 1)]) (by omega) (by omega)
      (by rw [List.length_set]; exact hlen) (by
        intro c
        by_cases hc : co - 1 = c
        · subst hc
          rw [getD_set_self _ _ _ _ (by rw [hlen]; omega),
            if_pos ⟨le_refl _, by omega⟩]
        · rw [getD_set_other _ _ _ _ _ hc, hpt c]
          by_cases h1 : co ≤ c ∧ c < K
          · rw [if_pos h1, if_pos ⟨by omega, h1.2⟩]
          · rw [if_neg h1, if_neg (by omega)])
    refine ⟨hres.1, fun c => ?_⟩
    have hx := hres.2 c
    rw [show co - 1 - d = co - (d + 1) from by omega] at hx
    exact hx

lemma coalesceLoop_spec (K : Nat) :
    ∀ (d r : Nat) (L : List (List Nat)), r + d = K →
      L.length = K + 1 →
      (∀ c, L.getD c [] = if r ≤ c ∧ c < K then [2 ^ c] else []) →
      ∃ L', coalesceLoop L 0 r d = (L', 0, K) ∧ L'.length = K + 1 ∧
        ∀ c, L'.getD c [] = [] := by
  intro d
  induction d with
  | zero =>
    intro r L h hlen hpt
    have hr : r = K := by omega
    subst hr
    exact ⟨L, rfl, hlen, fun c => by rw [hpt c, if_neg (by omega)]⟩
  | succ d ih =>
    intro r L h hlen hpt
    have hr : r < K := by omega
    rw [coalesceLoop_step, Nat.zero_xor]
    have hg : L.getD r [] = [2 ^ r] := by rw [hpt r, if_pos ⟨le_refl r, hr⟩]
    rw [hg, if_pos (List.mem_singleton.mpr rfl), List.erase_cons_head, Nat.zero_min]
    apply ih (r + 1) _ (by omega) (by rw [List.length_set]; exact hlen)
    intro c
    by_cases hc : r = c
    · subst hc
      rw [getD_set_self _ _ _ _ (by rw [hlen]; omega), if_neg (by omega)]
    · rw [getD_set_other _ _ _ _ _ hc, hpt c]
      by_cases h1 : r + 1 ≤ c ∧ c < K
      · rw [if_pos ⟨by omega, h1.2⟩, if_pos h1]
      · rw [if_neg (by omega), if_neg h1]

lemma buddy_allocate_pristine (T K : Nat) (size : Int)
    (h : bitLength (size - 1).natAbs ≤ K) :
    BuddySystemAllocator.allocate
      { total_memory := T, max_order := K,
        free_lists := (List.replicate (K + 1) []).set K [0],
        allocated_blocks := [] } size =
      some (0,
        { total_memory := T, max_order := K,
          free_lists :=
            splitLoop (((List.replicate (K + 1) ([] : List Nat)).set K [0]).set K [])
              0 K (K - bitLength (size - 1).natAbs),
          allocated_blocks :=
            [(0, { size := 2 ^ bitLength (size - 1).natAbs,
                   order := bitLength (size - 1).natAbs })] }) := by
  unfold BuddySystemAllocator.allocate
  dsimp only
  generalize hgo : bitLength (size - 1).natAbs = o
  rw [hgo] at h
  rw [if_neg (by omega : ¬ o > K)]
  rw [show K + 1 - o = (K - o) + 1 from by omega]
  rw [findNonempty_pristine K (K - o) o (by omega)]
  dsimp only
  rw [pristine_getD, if_pos rfl]
  rfl

lemma buddy_free_roundtrip (T K o : Nat) (ho : o ≤ K) :
    BuddySystemAllocator.free
      { total_memory := T, max_order := K,
        free_lists :=
          splitLoop (((List.replicate (K + 1) ([] : List Nat)).set K [0]).set K [])
            0 K (K - o),
        allocated_blocks := [(0, { size := 2 ^ o, order := o })] } 0 =
      FreeResult.ok
        { total_memory := T, max_order := K,
          free_lists := (List.replicate (K + 1) []).set K [0],
          allocated_blocks := [] } := by
  have hlen1 :
      ((((List.replicate (K + 1) ([] : List Nat)).set K [0])).set K
        ([] : List Nat)).length = K + 1 := by
    rw [List.length_set, List.length_set, List.length_replicate]
  have hpt1 : ∀ c,
      ((((List.replicate (K + 1) ([] : List Nat)).set K [0])).set K
        ([] : List Nat)).getD c [] = if K ≤ c ∧ c < K then [2 ^ c] else [] := by
    intro c
    rw [if_neg (by omega)]
    by_cases hc : K = c
    · subst hc
      exact getD_set_self _ _ _ _ (by rw [List.length_set, List.length_replicate]; omega)
    · rw [getD_set_other _ _ _ _ _ hc, pristine_getD, if_neg (fun he => hc he.symm)]
  obtain ⟨hlen2, hpt2⟩ :=
    splitLoop_spec K (K - o) K _ (le_refl K) (Nat.sub_le K o) hlen1 hpt1
  have hpt2' : ∀ c,
      (splitLoop (((List.replicate (K + 1) ([] : List Nat)).set K [0]).set K [])
        0 K (K - o)).getD c [] = if o ≤ c ∧ c < K then [2 ^ c] else [] := by
    intro c
    have hx := hpt2 c
    rw [show K - (K - o) = o from by omega] at hx
    exact hx
  obtain ⟨L', hcoeq, hlenL', hptL'⟩ :=
    coalesceLoop_spec K (K - o) o _ (by omega) hlen2 hpt2'
  unfold BuddySystemAllocator.free
  dsimp only
  rw [show alookup [((0 : Nat), ({ size := 2 ^ o, order := o } : AllocInfo))] 0 =
    some { size := 2 ^ o, order := o } from rfl]
  dsimp only
  rw [hcoeq]
  dsimp only
  rw [hptL' K, List.nil_append,
    show List.insertionSort (· ≤ ·) [(0 : Nat)] = [0] from rfl]
  rw [if_pos (show amem [((0 : Nat), ({ size := 2 ^ o, order := o } : AllocInfo))] 0 =
    true from rfl)]
  have hL : L'.set K [0] = (List.replicate (K + 1) ([] : List Nat)).set K [0] := by
    apply list_eq_of_getD ([] : List Nat)
    · rw [List.length_set, hlenL', List.length_set, List.length_replicate]
    · intro c
      by_cases hc : K = c
      · subst hc
        rw [getD_set_self _ _ _ _ (by rw [hlenL']; omega), pristine_getD, if_pos rfl]
      · rw [getD_set_other _ _ _ _ _ hc, hptL' c, pristine_getD,
          if_neg (fun he => hc he.symm)]
  rw [hL]
  rfl

/-- Claim C9: starting from a buddy-allocator state with no allocations outstanding (the
single free block at the top order, as produced by the constructor), a successful
allocate(size) followed immediately by free of the returned address restores the entire
allocator state — in particular the free lists — to exactly what it was before. -/
theorem buddy_alloc_free_roundtrip (n size : Int)
    (h : bitLength (size - 1).natAbs ≤ (BuddySystemAllocator.init n).max_order) :
    ∃ addr s1, (BuddySystemAllocator.init n).allocate size = some (addr, s1) ∧
      BuddySystemAllocator.free s1 addr = FreeResult.ok (BuddySystemAllocator.init n) := by
  set K := (BuddySystemAllocator.init n).max_order with hK
  set T := (BuddySystemAllocator.init n).total_memory with hT
  have hinit : BuddySystemAllocator.init n =
      { total_memory := T, max_order := K,
        free_lists := (List.replicate (K + 1) []).set K [0],
        allocated_blocks := [] } := rfl
  refine ⟨0,
    { total_memory := T, max_order := K,
      free_lists :=
        splitLoop (((List.replicate (K + 1) ([] : List Nat)).set K [0]).set K [])
          0 K (K - bitLength (size - 1).natAbs),
      allocated_blocks :=
        [(0, { size := 2 ^ bitLength (size - 1).natAbs,
               order := bitLength (size - 1).natAbs })] }, ?_, ?_⟩
  · rw [hinit]
    exact buddy_allocate_pristine T K size h
  · rw [hinit]
    exact buddy_free_roundtrip T K (bitLength (size - 1).natAbs) h

theorem buddy_alloc_free_roundtrip_witness :
    bitLength ((21 : Int) - 1).natAbs ≤ (BuddySystemAllocator.init 256).max_order ∧
    ∃ addr s1, (BuddySystemAllocator.init 256).allocate 21 = some (addr, s1) ∧
      BuddySystemAllocator.free s1 addr = FreeResult.ok (BuddySystemAllocator.init 256) :=
  ⟨by decide, buddy_alloc_free_roundtrip 256 21 (by decide)⟩

/-! ## C1: fault counts on the classic reference string -/

/-- Claim C1: running the engine via `run_simulation` on the classic reference string
[7,0,1,2,0,3,0,4,2,3,0,3,0,3,2,1,2,0,1,7,0,1] with 3 frames yields 15 faults under FIFO
and 12 under LRU as claimed, but 12 — NOT the claimed 9 — under the Optimal policy:
`optimal_replacement` searches the full `access_history` from index 0 instead of the
remaining future, contradicting its own comment and the textbook value. -/
theorem classic_reference_fault_counts :
    (runPolicy 3 ReplacementAlgorithm.FIFO classicRef).page_faults = 15 ∧
    (runPolicy 3 ReplacementAlgorithm.LRU classicRef).page_faults = 12 ∧
    (runPolicy 3 ReplacementAlgorithm.OPTIMAL classicRef).page_faults = 12 := by
  decide

/-! ## C3: Belady's anomaly direction -/

/-- Claim C3 counterexample: on [1,2,3,4,1,2,5,1,2,3,4,5], FIFO with 3 frames yields 9
faults and FIFO with 4 frames yields 10, so 3 frames does NOT produce strictly more
faults than 4 frames — the claim has the anomaly backwards. -/
theorem fifo_three_not_more_than_four :
    (runPolicy 3 ReplacementAlgorithm.FIFO beladyRef).page_faults = 9 ∧
    (runPolicy 4 ReplacementAlgorithm.FIFO beladyRef).page_faults = 10 ∧
    ¬ ((runPolicy 3 ReplacementAlgorithm.FIFO beladyRef).page_faults >
        (runPolicy 4 ReplacementAlgorithm.FIFO beladyRef).page_faults) := by
  decide

/-- Claim C3 (amended): on [1,2,3,4,1,2,5,1,2,3,4,5], FIFO with 4 frames produces
strictly more page faults than FIFO with 3 frames on the same string (Belady's anomaly:
adding a frame increases the fault count). -/
theorem belady_anomaly_fifo :
    (runPolicy 4 ReplacementAlgorithm.FIFO beladyRef).page_faults >
      (runPolicy 3 ReplacementAlgorithm.FIFO beladyRef).page_faults := by
  decide

/-! ## C4: the Optimal victim rule -/

/-- Claim C4: at the first replacement of the classic run (4th access, page 2; the state
after 3 accesses has no free frame and residents [7, 0, 1]), the code's
`optimal_replacement` picks page 1 — the resident whose FIRST occurrence in the full
reference string is latest — while the spec's rule (farthest next reference in the
remaining future, here the string after index 3) picks page 7. The code consults the full
history instead of the remaining future. -/
theorem optimal_victim_divergence :
    (simAfter 3 ReplacementAlgorithm.OPTIMAL classicRef 3).free_frames = [] ∧
    (simAfter 3 ReplacementAlgorithm.OPTIMAL classicRef 3).allocated_frames.map (·.2) =
      [7, 0, 1] ∧
    optimal_replacement (simAfter 3 ReplacementAlgorithm.OPTIMAL classicRef 3) = some 1 ∧
    specOptimalVictim (classicRef.drop 4) [7, 0, 1] none = some 7 := by
  decide

/-! ## C5: absence of InvalidConfiguration validation -/

/-- Claim C5 counterexample: no construction/call-time validation exists. A zero-frame
engine is constructed normally and an access on it completes with its counters mutated
(no error of any kind is raised at the boundary); a negative page number is accepted and
loaded as an ordinary page; the buddy allocator built with total memory 0 silently rounds
it up to 2 ((0-1).bit_length() = 1). -/
theorem invalid_configuration_absent :
    (runPolicy 0 ReplacementAlgorithm.FIFO [0]).memory_accesses = 1 ∧
    (runPolicy 0 ReplacementAlgorithm.FIFO [0]).page_faults = 1 ∧
    (runPolicy 1 ReplacementAlgorithm.FIFO [-1]).page_faults = 1 ∧
    (ptGet (runPolicy 1 ReplacementAlgorithm.FIFO [-1]) (-1)).valid = true ∧
    (BuddySystemAllocator.init 0).total_memory = 2 := by
  decide

/-- Claim C5 (amended): the code performs no input validation at all — there is no
InvalidConfiguration error. A frame count of zero constructs an engine with an empty
frame pool whose accesses simply all fault; negative page numbers are processed as
ordinary page ids; the buddy allocator accepts zero (and negative) total memory, rounding
through bit_length of the absolute value. -/
theorem construction_never_fails :
    (DemandPagingSimulator.init 0 ReplacementAlgorithm.LRU).free_frames = [] ∧
    (DemandPagingSimulator.init 0 ReplacementAlgorithm.LRU).total_frames = 0 ∧
    (ptGet (runPolicy 2 ReplacementAlgorithm.LRU [-5]) (-5)).valid = true ∧
    (runPolicy 2 ReplacementAlgorithm.LRU [-5]).memory_accesses = 1 ∧
    (BuddySystemAllocator.init (-4)).total_memory = 8 ∧
    (BuddySystemAllocator.init 0).max_order = 1 := by
  decide

/-! ## C2: the buddy tiling invariant is broken by free() -/

/-- Claim C2: the tiling invariant does not survive every allocate/free sequence. After
init(256); a = allocate(1) -> 0; b = allocate(1) -> 1; free(0) the tiling still holds,
but the next free(1) coalesces block 1 with its free buddy 0 all the way to the top
order, appends the merged block 0 to the top free list, and then executes
`del self.allocated_blocks[block]` with the REASSIGNED block value 0 — raising KeyError
and leaving block 1 still recorded as allocated while the free list already covers
[0, 256): free plus allocated blocks overlap instead of partitioning [0, total_memory). -/
theorem buddy_tiling_violation :
    tilesCheck (runBuddy 256 [BuddyOp.alloc 1, BuddyOp.alloc 1, BuddyOp.release 0]) =
      true ∧
    (BuddySystemAllocator.free
        (runBuddy 256 [BuddyOp.alloc 1, BuddyOp.alloc 1, BuddyOp.release 0])
        1).isKeyError = true ∧
    tilesCheck
        (runBuddy 256
          [BuddyOp.alloc 1, BuddyOp.alloc 1, BuddyOp.release 0, BuddyOp.release 1]) =
      false := by
  decide
